import Mathlib

/-!
Shallow embedding of the scanner in `src/lexer.rs` of the nex-lang
repository.  The Rust source is translated function by function:

* `source` is kept as a `List Char`; the Rust code addresses the source
  exclusively through `self.source.chars().nth(i)` (character index), and
  the byte-index slices in `add_token_literal` / `make_string` /
  `make_number` coincide with character-index slices on ASCII input, which
  is the fragment all claims are about.
* the cursor fields `start`, `current` and the `line` counter are `i32` in
  Rust but are only ever initialised to `0` / `1` and incremented, so they
  are embedded as `Nat` (no overflow is reachable for the inputs the
  claims quantify over).
* Rust `panic!` (and the `unwrap` inside `advance`, which can fail on the
  double `advance()` after the block-comment loop) aborts the process;
  it is embedded as the `Except` error channel with a `Panic` code.  The
  `Result<(), Errors>` values the Rust code returns are always `Ok` and are
  discarded at every call site (`let _ = ...`), so they do not appear in
  the embedding.
* `errors.rs` is not part of the sources.  Its only use inside the scanner
  is `Errors::unexpected_character(c, line)` whose return value is
  discarded; per the specification an unexpected character is reported and
  scanning continues with no token emitted, so the embedding leaves the
  state unchanged on that branch.
* every Rust `while` loop is embedded with an explicit fuel argument that
  is instantiated at each call site with `source.length - current`, the
  exact number of characters left; each loop iteration consumes one
  character, so the fuel-0 case is only reached at end of input, where the
  Rust loop also stops.
* Rust `char::is_alphanumeric` is Unicode-aware; the embedding uses
  `Char.isAlphanum` (ASCII letters and digits), which agrees with it on the
  ASCII fragment.  `is_digit(10)` is exactly `Char.isDigit`.
-/

/-- The token kinds of `lexer.rs` (`enum TokenType`). -/
inductive TokenType where
  | Bang
  | BangEqual
  | Equal
  | EqualEqual
  | Less
  | LessEqual
  | Greater
  | GreaterEqual
  | LeftBrace
  | RightBrace
  | LeftParen
  | RightParen
  | Dot
  | Minus
  | Plus
  | Comma
  | Semicolon
  | Slash
  | Star
  | Number
  | Identifier
  | String
  | And
  | Else
  | False
  | True
  | Fn
  | If
  | Nil
  | Or
  | Print
  | Return
  | Var
  | Match
  | Do
  | End
  | FnTypeAssigner
  | FnTypeImplication
  | NumberType
  | FloatType
  | BoolType
  | StringType
  | NilType
  | FunctionType
  | UnknownType
  | EOF
deriving DecidableEq, Repr

/-- `struct Token` of `lexer.rs`. -/
structure Token where
  token : TokenType
  lexeme : String
  literal : String
  line : Nat
deriving DecidableEq, Repr

/-- The process-aborting outcomes of the Rust scanner: the two `panic!`
calls, and the `unwrap` of an out-of-range `chars().nth` inside
`advance`. -/
inductive Panic where
  | unterminatedString
  | unterminatedComment
  | indexOutOfBounds
deriving DecidableEq, Repr

/-- `struct Scanner` of `lexer.rs`. -/
structure Scanner where
  source : List Char
  tokens : List Token
  start : Nat
  current : Nat
  line : Nat
deriving DecidableEq, Repr

/-- `Scanner::new`. -/
def Scanner.new (source : String) : Scanner :=
  { source := source.toList, tokens := [], start := 0, current := 0, line := 1 }

/-- `Scanner::get_keyword`. -/
def getKeyword (identifier : String) : Option TokenType :=
  match identifier with
  | "and" => some TokenType.And
  | "else" => some TokenType.Else
  | "false" => some TokenType.False
  | "fn" => some TokenType.Fn
  | "if" => some TokenType.If
  | "nil" => some TokenType.Nil
  | "or" => some TokenType.Or
  | "print" => some TokenType.Print
  | "return" => some TokenType.Return
  | "true" => some TokenType.True
  | "var" => some TokenType.Var
  | "match" => some TokenType.Match
  | "number" => some TokenType.NumberType
  | "float" => some TokenType.FloatType
  | "bool" => some TokenType.BoolType
  | "string" => some TokenType.StringType
  | _ => none

/-- `Scanner::is_at_end` (`current >= source.len()`). -/
def isAtEnd (st : Scanner) : Bool :=
  decide (st.source.length ≤ st.current)

/-- `Scanner::advance`: reads the character at `current` and moves the
cursor one position; the `unwrap` panics when `current` is out of range. -/
def advance (st : Scanner) : Except Panic (Char × Scanner) :=
  match st.source[st.current]? with
  | some c => Except.ok (c, { st with current := st.current + 1 })
  | none => Except.error Panic.indexOutOfBounds

/-- `Scanner::is_match`: conditional one-character lookahead that consumes
the character exactly when it equals `expected`. -/
def isMatch (expected : Char) (st : Scanner) : Bool × Scanner :=
  match st.source[st.current]? with
  | some c =>
      if c = expected then (true, { st with current := st.current + 1 })
      else (false, st)
  | none => (false, st)

/-- `Scanner::peek` (`'\0'` at end of input). -/
def peek (st : Scanner) : Char :=
  st.source.getD st.current (Char.ofNat 0)

/-- `Scanner::peek_next` (`'\0'` when `current + 1` is out of range). -/
def peekNext (st : Scanner) : Char :=
  st.source.getD (st.current + 1) (Char.ofNat 0)

/-- The slice `source[a..b]` as a `String` (character indices; see the
header note on ASCII). -/
def sliceStr (s : List Char) (a b : Nat) : String :=
  ((s.drop a).take (b - a)).asString

/-- `Scanner::add_token_literal`: pushes a token whose lexeme is
`source[start..current]` and whose line is the current line counter. -/
def addTokenLiteral (token : TokenType) (literal : Option String) (st : Scanner) : Scanner :=
  { st with tokens := st.tokens ++
      [{ token := token
         lexeme := sliceStr st.source st.start st.current
         literal := literal.getD ""
         line := st.line }] }

/-- `Scanner::add_token`. -/
def addToken (token : TokenType) (st : Scanner) : Scanner :=
  addTokenLiteral token none st

/-- The `while` loop of `Scanner::make_string`: consume characters until a
`'"'` is seen or input ends, incrementing `line` on each `'\n'`
consumed. -/
def stringLoop : Nat → Scanner → Scanner
  | 0, st => st
  | fuel + 1, st =>
      if h : st.current < st.source.length then
        if st.source.get ⟨st.current, h⟩ = '"' then st
        else
          stringLoop fuel
            { st with
              current := st.current + 1
              line := if st.source.get ⟨st.current, h⟩ = '\n' then st.line + 1 else st.line }
      else st

/-- `Scanner::make_string`: panics on an unterminated string, otherwise
consumes the closing quote and emits a `String` token whose literal is the
text strictly between the quotes. -/
def makeString (st : Scanner) : Except Panic Scanner :=
  let st1 := stringLoop (st.source.length - st.current) st
  if isAtEnd st1 then Except.error Panic.unterminatedString
  else
    match advance st1 with
    | Except.error e => Except.error e
    | Except.ok (_, st2) =>
        Except.ok (addTokenLiteral TokenType.String
          (some (sliceStr st2.source (st2.start + 1) (st2.current - 1))) st2)

/-- A `while self.peek().is_digit(10)` loop of `Scanner::make_number`. -/
def digitLoop : Nat → Scanner → Scanner
  | 0, st => st
  | fuel + 1, st =>
      if h : st.current < st.source.length then
        if (st.source.get ⟨st.current, h⟩).isDigit then
          digitLoop fuel { st with current := st.current + 1 }
        else st
      else st

/-- A full `while self.peek().is_digit(10)` loop (fuel instantiated with
the remaining character count). -/
def digitRun (st : Scanner) : Scanner :=
  digitLoop (st.source.length - st.current) st

/-- The `if self.peek() == '.' && self.peek_next().is_digit(10)` step of
`Scanner::make_number`: consume the decimal point when a digit follows. -/
def numberDotStep (st : Scanner) : Scanner :=
  if peek st = '.' ∧ (peekNext st).isDigit then { st with current := st.current + 1 }
  else st

/-- The final `add_token_literal(Number, Some(value))` of
`Scanner::make_number`. -/
def emitNumber (st : Scanner) : Scanner :=
  addTokenLiteral TokenType.Number
    (some (sliceStr st.source st.start st.current)) st

/-- `Scanner::make_number`: digits, optional decimal point followed by a
digit, further digits, then one `Number` token. -/
def makeNumber (st : Scanner) : Scanner :=
  emitNumber (digitRun (numberDotStep (digitRun st)))

/-- The `while self.peek().is_alphanumeric()` loop of
`Scanner::make_identifier`. -/
def alnumLoop : Nat → Scanner → Scanner
  | 0, st => st
  | fuel + 1, st =>
      if h : st.current < st.source.length then
        if (st.source.get ⟨st.current, h⟩).isAlphanum then
          alnumLoop fuel { st with current := st.current + 1 }
        else st
      else st

/-- `Scanner::make_identifier`: extends the current lexeme over the maximal
alphanumeric run, then emits the keyword kind found by `get_keyword`, or an
`Identifier` token carrying the run as its literal. -/
def makeIdentifier (st : Scanner) : Scanner :=
  let st1 := alnumLoop (st.source.length - st.current) st
  let value := sliceStr st1.source st1.start st1.current
  match getKeyword value with
  | some keyword => addToken keyword st1
  | none => addTokenLiteral TokenType.Identifier (some value) st1

/-- The `'#'` line-comment loop of `Scanner::scan_token`: consume until the
next `'\n'` (left unconsumed) or end of input. -/
def lineCommentLoop : Nat → Scanner → Scanner
  | 0, st => st
  | fuel + 1, st =>
      if peek st ≠ '\n' ∧ isAtEnd st = false then
        lineCommentLoop fuel { st with current := st.current + 1 }
      else st

/-- The block-comment loop of `Scanner::scan_token`, exactly as written in
the source: it keeps consuming while `peek() != '*' && peek_next() != '/'
&& !is_at_end()`, incrementing `line` on each `'\n'` it consumes. -/
def commentLoop : Nat → Scanner → Scanner
  | 0, st => st
  | fuel + 1, st =>
      if peek st ≠ '*' ∧ peekNext st ≠ '/' ∧ isAtEnd st = false then
        let st' :=
          if peek st = '\n' then { st with line := st.line + 1 } else st
        commentLoop fuel { st' with current := st'.current + 1 }
      else st

/-- `Scanner::scan_token`: dispatch on the character returned by
`advance`. -/
def scanToken (st : Scanner) : Except Panic Scanner := do
  let (character, st) ← advance st
  match character with
  | '\n' => pure { st with line := st.line + 1 }
  | ' ' => pure st
  | '{' => pure (addToken TokenType.LeftBrace st)
  | '}' => pure (addToken TokenType.RightBrace st)
  | '(' => pure (addToken TokenType.LeftParen st)
  | ')' => pure (addToken TokenType.RightParen st)
  | ',' => pure (addToken TokenType.Comma st)
  | '.' => pure (addToken TokenType.Dot st)
  | '-' =>
      let (m, st) := isMatch '>' st
      pure (addToken (if m then TokenType.FnTypeImplication else TokenType.Minus) st)
  | '+' => pure (addToken TokenType.Plus st)
  | ';' => pure (addToken TokenType.Semicolon st)
  | '*' => pure (addToken TokenType.Star st)
  | '!' =>
      let (m, st) := isMatch '=' st
      pure (addToken (if m then TokenType.BangEqual else TokenType.Equal) st)
  | '=' =>
      let (m, st) := isMatch '=' st
      pure (addToken (if m then TokenType.EqualEqual else TokenType.Equal) st)
  | '<' =>
      let (m, st) := isMatch '=' st
      pure (addToken (if m then TokenType.LessEqual else TokenType.Less) st)
  | '>' =>
      let (m, st) := isMatch '=' st
      pure (addToken (if m then TokenType.GreaterEqual else TokenType.Greater) st)
  | '#' => pure (lineCommentLoop (st.source.length - st.current) st)
  | '/' =>
      let (m, st) := isMatch '*' st
      if m then do
        let st := commentLoop (st.source.length - st.current) st
        if isAtEnd st then Except.error Panic.unterminatedComment
        else do
          let (_, st) ← advance st
          let (_, st) ← advance st
          pure st
      else pure (addToken TokenType.Slash st)
  | ':' =>
      let (m, st) := isMatch ':' st
      if m ∧ isAtEnd st = false then pure (addToken TokenType.FnTypeAssigner st)
      else pure st
  | '"' => makeString st
  | c =>
      if c.isDigit then pure (makeNumber st)
      else if c.isAlphanum then pure (makeIdentifier st)
      else pure st

/-- The `while !self.is_at_end()` loop of `Scanner::scan_tokens`: set
`start := current` and run `scan_token` until the cursor reaches the end of
the source.  The fuel is instantiated with `source.length` below; each
successful `scan_token` consumes at least one character, so the fuel-0
branch is unreachable from `scanTokens`. -/
def scanLoop : Nat → Scanner → Except Panic Scanner
  | 0, st => Except.ok st
  | fuel + 1, st =>
      if isAtEnd st then Except.ok st
      else
        match scanToken { st with start := st.current } with
        | Except.error e => Except.error e
        | Except.ok st' => scanLoop fuel st'

/-- `Scanner::scan_tokens`: drive the cursor to the end of the source, then
push the final `EOF` token. -/
def scanTokens (st : Scanner) : Except Panic Scanner :=
  match scanLoop st.source.length st with
  | Except.error e => Except.error e
  | Except.ok st' =>
      Except.ok { st' with tokens := st'.tokens ++
        [{ token := TokenType.EOF, lexeme := "", literal := "", line := st'.line }] }

/-- The whole pipeline of `main.rs`: `Scanner::new`, `scan_tokens`,
`get_tokens`. -/
def scanTokensStr (s : String) : Except Panic (List Token) :=
  match scanTokens (Scanner.new s) with
  | Except.error e => Except.error e
  | Except.ok st => Except.ok st.tokens

instance {ε α : Type} [DecidableEq ε] [DecidableEq α] : DecidableEq (Except ε α)
  | Except.error a, Except.error b =>
      if h : a = b then isTrue (by rw [h])
      else isFalse (by intro hc; cases hc; exact h rfl)
  | Except.error _, Except.ok _ => isFalse (by intro h; cases h)
  | Except.ok _, Except.error _ => isFalse (by intro h; cases h)
  | Except.ok a, Except.ok b =>
      if h : a = b then isTrue (by rw [h])
      else isFalse (by intro hc; cases hc; exact h rfl)

/-- 1-based line number of character position `i` of a source text: one
more than the number of newline characters strictly before `i`.  Used to
state claims that compare a token's recorded line with the source line its
characters actually sit on. -/
def lineOfPos (s : List Char) (i : Nat) : Nat :=
  1 + (s.take i).count '\n'

/-- The two-character operator table of the specification: each pair that
must scan as one compound token, with its kind. -/
def compoundPairs : List ((Char × Char) × TokenType) :=
  [(('!', '='), TokenType.BangEqual),
   (('=', '='), TokenType.EqualEqual),
   (('<', '='), TokenType.LessEqual),
   (('>', '='), TokenType.GreaterEqual),
   (('-', '>'), TokenType.FnTypeImplication),
   ((':', ':'), TokenType.FnTypeAssigner)]

theorem take_two_of_getElem (s : List Char) (i : Nat) (a b : Char)
    (h1 : s[i]? = some a) (h2 : s[i + 1]? = some b) :
    (s.drop i).take 2 = [a, b] := by
  have e1 : (s.drop i)[0]? = some a := by rw [List.getElem?_drop]; simpa using h1
  have e2 : (s.drop i)[1]? = some b := by rw [List.getElem?_drop]; simpa using h2
  rcases hd : s.drop i with _ | ⟨x, _ | ⟨y, rest⟩⟩ <;> rw [hd] at e1 e2 <;> simp_all

/-- `stringLoop` leaves `source`, `start` and `tokens` untouched, only
moves the cursor forward, and adds to `line` exactly the number of newline
characters among the source characters it consumed. -/
theorem stringLoop_spec (fuel : Nat) (st : Scanner) :
    (stringLoop fuel st).source = st.source ∧
    (stringLoop fuel st).start = st.start ∧
    (stringLoop fuel st).tokens = st.tokens ∧
    st.current ≤ (stringLoop fuel st).current ∧
    (stringLoop fuel st).line = st.line +
      ((st.source.drop st.current).take ((stringLoop fuel st).current - st.current)).count '\n' := by
  induction fuel generalizing st with
  | zero => simp [stringLoop]
  | succ n ih =>
    rw [stringLoop]
    split
    case isTrue h =>
      split
      case isTrue hq => simp
      case isFalse hq =>
        set st1 : Scanner := { st with current := st.current + 1, line := if st.source.get ⟨st.current, h⟩ = '\n' then st.line + 1 else st.line } with hst1
        obtain ⟨s1, s2, s3, s4, s5⟩ := ih st1
        have hsrc : st1.source = st.source := rfl
        have hstt : st1.start = st.start := rfl
        have htok : st1.tokens = st.tokens := rfl
        have hcur : st1.current = st.current + 1 := rfl
        have hline : st1.line = if st.source.get ⟨st.current, h⟩ = '\n' then st.line + 1 else st.line := rfl
        rw [hsrc] at s1
        rw [hstt] at s2
        rw [htok] at s3
        rw [hcur] at s4 s5
        rw [hsrc, hline] at s5
        refine ⟨s1, s2, s3, by omega, ?_⟩
        rw [s5, List.drop_eq_getElem_cons h,
            show (stringLoop n st1).current - st.current
              = ((stringLoop n st1).current - (st.current + 1)) + 1 by omega,
            List.take_succ_cons, List.count_cons]
        simp only [List.get_eq_getElem]
        by_cases hcc : st.source[st.current] = '\n'
        · simp [hcc]
          try omega
        · simp [hcc, Ne.symm hcc]
          try omega
    case isFalse h => simp

/-- Claim C1: the claim says scanning always returns to the caller with
lexical errors surfaced as structured recoverable outcomes and never aborts
the hosting process; on the input consisting of a double quote followed by
`abc` (no closing quote) the code instead reaches the
`panic!("Unterminated string")` in `Scanner::make_string`, aborting the
process with no token list and no line-carrying error value. -/
theorem unterminated_string_panics :
    scanTokensStr "\"abc" = Except.error Panic.unterminatedString := by
  decide

/-- Claim C3: the claim says a block comment is consumed through the first
occurrence of the terminator pair `*` `/` with no token emitted; on
`/*ab*cd*/` the code instead stops the comment at the interior `*` (the
loop tests `peek() != '*'` and `peek_next() != '/'` at independent
positions), swallows the two following characters, and tokenizes the rest
of the comment body (`d`, `*`, `/`) instead of emitting nothing. -/
theorem block_comment_early_termination :
    scanTokensStr "/*ab*cd*/" = Except.ok
      [{ token := TokenType.Identifier, lexeme := "d", literal := "d", line := 1 },
       { token := TokenType.Star, lexeme := "*", literal := "", line := 1 },
       { token := TokenType.Slash, lexeme := "/", literal := "", line := 1 },
       { token := TokenType.EOF, lexeme := "", literal := "", line := 1 }] := by
  decide

/-- Claim C4: the claim says a `!` not followed by `=` is emitted with the
distinct logical-negation kind `Bang`; the code's fallback arm instead
emits `TokenType::Equal`, the assignment kind, and the `Bang` variant is
never produced. -/
theorem lone_bang_emits_equal :
    scanTokensStr "!" = Except.ok
      [{ token := TokenType.Equal, lexeme := "!", literal := "", line := 1 },
       { token := TokenType.EOF, lexeme := "", literal := "", line := 1 }] := by
  decide

/-- Claim C7: the claim says the line counter is incremented exactly once
per newline character consumed, including newlines inside block comments;
on `/*` `newline` `/` the block-comment loop exits at the newline (because
`peek_next() = '/'`) and the two unconditional `advance()` calls consume
the newline without touching `line`, so the scan consumes one newline yet
finishes with the line counter still at 1. -/
theorem block_comment_swallows_newline :
    scanTokensStr "/*\n/" = Except.ok
        [{ token := TokenType.EOF, lexeme := "", literal := "", line := 1 }]
      ∧ ("/*\n/".toList.count '\n') = 1 := by
  constructor
  · decide
  · decide

/-- Claim C5 counterexample: the claim includes `do` (and `end`) among the
reserved keywords that are never emitted as `Identifier`, but
`Scanner::get_keyword` has no arm for `do`, so the input `do` is scanned as
an `Identifier` token and the `Do` kind is never emitted. -/
theorem do_scans_as_identifier :
    scanTokensStr "do" = Except.ok
      [{ token := TokenType.Identifier, lexeme := "do", literal := "do", line := 1 },
       { token := TokenType.EOF, lexeme := "", literal := "", line := 1 }] := by
  decide

/-- Claim C6 counterexample: the claim says every occurrence of `::` at a
token boundary is scanned as one compound token, but when the source ends
with `::` the guard `!self.is_at_end()` evaluated after `is_match(':')`
fails and no token (compound or single-character) is emitted: scanning the
two-character source `::` yields only the `EOF` token. -/
theorem coloncolon_at_eof_scans_empty :
    scanTokensStr "::" = Except.ok
      [{ token := TokenType.EOF, lexeme := "", literal := "", line := 1 }] := by
  decide

/-- Claim C8 counterexample: the claim says every token's `line` is the
1-based source line of the token's first character, and in particular that
a multi-line String token records the line of its opening quote; on a
string literal containing one newline the opening quote sits on line 1
(`lineOfPos` = 1) but the emitted String token records line 2, the line of
its closing quote, because `make_string` pushes the token only after the
newline has incremented the counter. -/
theorem multiline_string_line_is_closing :
    scanTokensStr "\"a\nb\"" = Except.ok
        [{ token := TokenType.String, lexeme := "\"a\nb\"", literal := "a\nb", line := 2 },
         { token := TokenType.EOF, lexeme := "", literal := "", line := 2 }]
      ∧ lineOfPos ("\"a\nb\"".toList) 0 = 1 := by
  constructor
  · decide
  · decide

/-- Claim C10: scanning is deterministic: two scanners built from equal
source strings produce identical token sequences (hence agreement in kind,
lexeme, literal and line at every position), because the whole pipeline
`Scanner::new` / `scan_tokens` / `get_tokens` is a pure function of the
source text. -/
theorem scan_deterministic (s1 s2 : String) (h : s1 = s2) :
    scanTokensStr s1 = scanTokensStr s2 := by
  rw [h]

/-- Witness for `scan_deterministic` at the concrete source `5 + 5`. -/
theorem scan_deterministic_witness :
    scanTokensStr "5 + 5" = scanTokensStr "5 + 5" :=
  scan_deterministic "5 + 5" "5 + 5" rfl

/-- Claim C9: when the source ends with `::` (the cursor reaches end of
input immediately after consuming both colons), `scan_token` emits no token
at all for them — the `!self.is_at_end()` conjunct fails, so neither the
`FnTypeAssigner` compound token nor any single-character token is pushed,
and only the cursor moves. -/
theorem trailing_type_assigner_no_token (st : Scanner)
    (h1 : st.source[st.current]? = some ':')
    (h2 : st.source[st.current + 1]? = some ':')
    (h3 : st.current + 2 = st.source.length) :
    scanToken st = Except.ok { st with current := st.current + 2 } := by
  have hlt : ¬ (st.current + 1 + 1 < st.source.length) := by omega
  simp only [scanToken, advance, h1, bind, Except.bind]
  simp [h2, isMatch, isAtEnd, hlt]
  rfl

/-- Witness for `trailing_type_assigner_no_token` on the two-character
source `::`. -/
theorem trailing_type_assigner_witness :
    scanToken (Scanner.new "::") = Except.ok { Scanner.new "::" with current := 2 } :=
  trailing_type_assigner_no_token (Scanner.new "::") (by decide) (by decide) (by decide)

/-- Claim C6 (amended): whenever `scan_token` starts at a position holding
one of the two-character operator pairs `!=`, `==`, `<=`, `>=`, `->`, `::`,
it consumes both characters and emits exactly one compound token of the
corresponding kind (never two single-character tokens) — except that the
`::` pair additionally requires at least one further character after it;
a `::` that ends the source emits no token (see the C6 counterexample and
claim C9). -/
theorem compound_pair_single_token (st : Scanner) (c1 c2 : Char) (k : TokenType)
    (hk : ((c1, c2), k) ∈ compoundPairs)
    (h1 : st.source[st.current]? = some c1)
    (h2 : st.source[st.current + 1]? = some c2)
    (hstart : st.start = st.current)
    (hcc : k = TokenType.FnTypeAssigner → st.current + 2 < st.source.length) :
    scanToken st = Except.ok
      { st with current := st.current + 2,
                tokens := st.tokens ++
                  [{ token := k, lexeme := ([c1, c2] : List Char).asString,
                     literal := "", line := st.line }] } := by
  have hsl : sliceStr st.source st.start (st.current + 2) = ([c1, c2] : List Char).asString := by
    rw [hstart]
    unfold sliceStr
    rw [show st.current + 2 - st.current = 2 by omega,
        take_two_of_getElem st.source st.current c1 c2 h1 h2]
  simp only [compoundPairs, List.mem_cons, List.not_mem_nil, or_false] at hk
  rcases hk with hk | hk | hk | hk | hk | hk <;>
    obtain ⟨⟨hc1, hc2⟩, hkk⟩ := by
      simpa [Prod.ext_iff] using hk
  all_goals subst hc1; subst hc2; subst hkk
  all_goals
    simp only [scanToken, advance, h1, bind, Except.bind]
    simp [isMatch, h2, addToken, addTokenLiteral, isAtEnd, hsl]
  all_goals try rfl
  rw [if_pos (show st.current + 1 + 1 < st.source.length by have := hcc rfl; omega)]
  rfl

/-- Witness for `compound_pair_single_token` on the two-character source
`!=`. -/
theorem compound_pair_single_token_witness :
    scanToken (Scanner.new "!=") = Except.ok
      { Scanner.new "!=" with current := 2,
                              tokens := [{ token := TokenType.BangEqual, lexeme := "!=",
                                           literal := "", line := 1 }] } :=
  compound_pair_single_token (Scanner.new "!=") '!' '=' TokenType.BangEqual
    (by decide) (by decide) (by decide) (by decide) (by decide)

/-- `alnumLoop` only moves the cursor: `source`, `start`, `tokens` and
`line` are unchanged. -/
theorem alnumLoop_spec (fuel : Nat) (st : Scanner) :
    (alnumLoop fuel st).source = st.source ∧
    (alnumLoop fuel st).start = st.start ∧
    (alnumLoop fuel st).tokens = st.tokens ∧
    (alnumLoop fuel st).line = st.line := by
  induction fuel generalizing st with
  | zero => simp [alnumLoop]
  | succ n ih =>
    rw [alnumLoop]
    split
    case isTrue h =>
      split
      case isTrue hq => exact ih { st with current := st.current + 1 }
      case isFalse hq => simp
    case isFalse h => simp

/-- `get_keyword` never answers with the `Identifier` or `EOF` kind. -/
theorem getKeyword_some_ne (s : String) (k : TokenType) (h : getKeyword s = some k) :
    k ≠ TokenType.Identifier ∧ k ≠ TokenType.EOF := by
  unfold getKeyword at h
  split at h <;> first
    | (injection h with h; subst h; exact ⟨by decide, by decide⟩)
    | exact absurd h (by simp)

/-- Claim C5 (amended): `make_identifier` emits exactly one token for the
maximal alphanumeric run it scans; the token is the keyword kind found by
`get_keyword` when the run's text is one of the reserved words
`and else false true fn if nil or print return var match` or one of the
type-name keywords `number float bool string` (never `Identifier` for
those), and is `Identifier` exactly when `get_keyword` finds nothing — in
particular `do` and `end` are NOT in the keyword table and scan as
`Identifier` (see the C5 counterexample). -/
theorem keyword_classification (st st' : Scanner) (h : makeIdentifier st = st') :
    (∃ tk, st'.tokens = st.tokens ++ [tk]
      ∧ tk.lexeme = sliceStr st.source st.start st'.current
      ∧ tk.token = (getKeyword tk.lexeme).getD TokenType.Identifier
      ∧ (getKeyword tk.lexeme = none → tk.token = TokenType.Identifier)
      ∧ ∀ k, getKeyword tk.lexeme = some k → tk.token = k ∧ k ≠ TokenType.Identifier)
    ∧ getKeyword "and" = some TokenType.And
    ∧ getKeyword "else" = some TokenType.Else
    ∧ getKeyword "false" = some TokenType.False
    ∧ getKeyword "true" = some TokenType.True
    ∧ getKeyword "fn" = some TokenType.Fn
    ∧ getKeyword "if" = some TokenType.If
    ∧ getKeyword "nil" = some TokenType.Nil
    ∧ getKeyword "or" = some TokenType.Or
    ∧ getKeyword "print" = some TokenType.Print
    ∧ getKeyword "return" = some TokenType.Return
    ∧ getKeyword "var" = some TokenType.Var
    ∧ getKeyword "match" = some TokenType.Match
    ∧ getKeyword "number" = some TokenType.NumberType
    ∧ getKeyword "float" = some TokenType.FloatType
    ∧ getKeyword "bool" = some TokenType.BoolType
    ∧ getKeyword "string" = some TokenType.StringType
    ∧ getKeyword "do" = none
    ∧ getKeyword "end" = none := by
  refine ⟨?_, by decide⟩
  subst h
  obtain ⟨s1, s2, s3, s4⟩ := alnumLoop_spec (st.source.length - st.current) st
  set st1 := alnumLoop (st.source.length - st.current) st with hst1
  have hmi : makeIdentifier st =
      (match getKeyword (sliceStr st1.source st1.start st1.current) with
        | some keyword => addToken keyword st1
        | none => addTokenLiteral TokenType.Identifier
            (some (sliceStr st1.source st1.start st1.current)) st1) := by
    simp only [makeIdentifier, hst1]
  cases hk : getKeyword (sliceStr st1.source st1.start st1.current) with
  | some k =>
    rw [hmi]
    simp only [hk]
    obtain ⟨hne, _⟩ := getKeyword_some_ne _ _ hk
    refine ⟨{ token := k, lexeme := sliceStr st1.source st1.start st1.current,
              literal := "", line := st1.line }, ?_, ?_, ?_, ?_, ?_⟩
    · simp [addToken, addTokenLiteral, s3]
    · show sliceStr st1.source st1.start st1.current
        = sliceStr st.source st.start st1.current
      rw [s1, s2]
    · simp [hk]
    · simp [hk]
    · intro k' hk'
      rw [hk] at hk'
      injection hk' with hk'
      subst hk'
      exact ⟨rfl, hne⟩
  | none =>
    rw [hmi]
    simp only [hk]
    refine ⟨{ token := TokenType.Identifier, lexeme := sliceStr st1.source st1.start st1.current,
              literal := sliceStr st1.source st1.start st1.current, line := st1.line }, ?_, ?_, ?_, ?_, ?_⟩
    · simp [addTokenLiteral, s3]
    · show sliceStr st1.source st1.start st1.current
        = sliceStr st.source st.start st1.current
      rw [s1, s2]
    · simp [hk]
    · simp [hk]
    · intro k' hk'
      rw [hk] at hk'
      cases hk'

/-- Witness for `keyword_classification`: running `make_identifier` over
the run `var` emits the `Var` keyword token. -/
theorem keyword_classification_witness :
    ∃ tk, [{ token := TokenType.Var, lexeme := "var", literal := "", line := 1 }]
        = ([] : List Token) ++ [tk]
      ∧ tk.lexeme = sliceStr ("var".toList) 0 3
      ∧ tk.token = (getKeyword tk.lexeme).getD TokenType.Identifier
      ∧ (getKeyword tk.lexeme = none → tk.token = TokenType.Identifier)
      ∧ ∀ k, getKeyword tk.lexeme = some k → tk.token = k ∧ k ≠ TokenType.Identifier :=
  (keyword_classification
    { source := "var".toList, tokens := [], start := 0, current := 1, line := 1 }
    { source := "var".toList,
      tokens := [{ token := TokenType.Var, lexeme := "var", literal := "", line := 1 }],
      start := 0, current := 3, line := 1 }
    (by decide)).1

/-- Claim C8 (amended): every token emitted by `make_string` records the
scanner's line counter at the moment of emission; for a String token this
is the line of its CLOSING quote — the line at the opening quote plus the
number of newline characters inside the string's literal — not the line of
its opening quote (see the C8 counterexample for the two differing). -/
theorem string_token_line (st st' : Scanner)
    (hs : st.start + 1 = st.current) (h : makeString st = Except.ok st') :
    ∃ tk, st'.tokens = st.tokens ++ [tk]
      ∧ tk.token = TokenType.String
      ∧ tk.line = st.line + tk.literal.toList.count '\n'
      ∧ tk.line = st'.line := by
  obtain ⟨s1, s2, s3, s4, s5⟩ := stringLoop_spec (st.source.length - st.current) st
  set st1 := stringLoop (st.source.length - st.current) st with hst1
  unfold makeString at h
  rw [← hst1] at h
  by_cases hend : isAtEnd st1
  · rw [if_pos hend] at h
    cases h
  · rw [if_neg hend] at h
    have hlt : st1.current < st1.source.length := by
      simp [isAtEnd] at hend
      omega
    cases hc : st1.source[st1.current]? with
    | none => rw [List.getElem?_eq_none_iff] at hc; omega
    | some c =>
      rw [show advance st1 = Except.ok (c, { st1 with current := st1.current + 1 })
            by simp [advance, hc]] at h
      injection h with h
      subst h
      refine ⟨{ token := TokenType.String,
                lexeme := sliceStr st1.source st1.start (st1.current + 1),
                literal := sliceStr st1.source (st1.start + 1) (st1.current + 1 - 1),
                line := st1.line }, ?_, rfl, ?_, ?_⟩
      · simp [addTokenLiteral, s3]
      · simp only [addTokenLiteral]
        show st1.line = st.line +
          (sliceStr st1.source (st1.start + 1) (st1.current + 1 - 1)).toList.count '\n'
        rw [s5]
        congr 1
        unfold sliceStr
        rw [s1, s2, hs]
        simp only [Nat.add_sub_cancel]
        rfl
      · simp [addTokenLiteral]

/-- Witness for `string_token_line` on the five-character source
consisting of quote, `a`, newline, `b`, quote. -/
theorem string_token_line_witness :
    ∃ tk, [{ token := TokenType.String, lexeme := "\"a\nb\"", literal := "a\nb", line := 2 }]
        = ([] : List Token) ++ [tk]
      ∧ tk.token = TokenType.String
      ∧ tk.line = 1 + tk.literal.toList.count '\n'
      ∧ tk.line = 2 :=
  string_token_line
    { source := "\"a\nb\"".toList, tokens := [], start := 0, current := 1, line := 1 }
    { source := "\"a\nb\"".toList,
      tokens := [{ token := TokenType.String, lexeme := "\"a\nb\"", literal := "a\nb", line := 2 }],
      start := 0, current := 5, line := 2 }
    (by decide) (by decide)

/-- `digitLoop` only moves the cursor: `source`, `start`, `tokens` and
`line` are unchanged. -/
theorem digitLoop_spec (fuel : Nat) (st : Scanner) :
    (digitLoop fuel st).source = st.source ∧
    (digitLoop fuel st).start = st.start ∧
    (digitLoop fuel st).tokens = st.tokens ∧
    (digitLoop fuel st).line = st.line := by
  induction fuel generalizing st with
  | zero => simp [digitLoop]
  | succ n ih =>
    rw [digitLoop]
    split
    case isTrue h =>
      split
      case isTrue hq => exact ih { st with current := st.current + 1 }
      case isFalse hq => simp
    case isFalse h => simp

/-- The line-comment loop only moves the cursor. -/
theorem lineCommentLoop_spec (fuel : Nat) (st : Scanner) :
    (lineCommentLoop fuel st).source = st.source ∧
    (lineCommentLoop fuel st).start = st.start ∧
    (lineCommentLoop fuel st).tokens = st.tokens ∧
    (lineCommentLoop fuel st).line = st.line := by
  induction fuel generalizing st with
  | zero => simp [lineCommentLoop]
  | succ n ih =>
    rw [lineCommentLoop]
    split
    · exact ih { st with current := st.current + 1 }
    · simp

/-- The block-comment loop never touches `source`, `start` or `tokens`. -/
theorem commentLoop_keeps (fuel : Nat) (st : Scanner) :
    (commentLoop fuel st).source = st.source ∧
    (commentLoop fuel st).start = st.start ∧
    (commentLoop fuel st).tokens = st.tokens := by
  induction fuel generalizing st with
  | zero => simp [commentLoop]
  | succ n ih =>
    rw [commentLoop]
    split
    · by_cases hnl : peek st = '\n' <;> simp only [if_pos, if_neg, hnl, ite_true, ite_false]
      · exact ih _
      · exact ih _
    · simp

/-- `is_match` never touches `source`, `start`, `tokens` or `line`. -/
theorem isMatch_keeps (e : Char) (st : Scanner) :
    (isMatch e st).2.source = st.source ∧ (isMatch e st).2.start = st.start ∧
    (isMatch e st).2.tokens = st.tokens ∧ (isMatch e st).2.line = st.line := by
  unfold isMatch
  rcases hc : st.source[st.current]? with _ | c
  · simp
  · by_cases he : c = e <;> simp [he]

/-- `add_token_literal` appends exactly one token, of the kind it was
given. -/
theorem addTokenLiteral_tokens (k : TokenType) (lit : Option String) (st : Scanner) :
    ∃ tk, (addTokenLiteral k lit st).tokens = st.tokens ++ [tk] ∧ tk.token = k :=
  ⟨_, rfl, rfl⟩

/-- `make_number` appends exactly one token and it is a `Number`. -/
theorem makeNumber_tokens (st : Scanner) :
    ∃ tk, (makeNumber st).tokens = st.tokens ++ [tk] ∧ tk.token = TokenType.Number := by
  unfold makeNumber emitNumber
  obtain ⟨tk, htk, hkind⟩ := addTokenLiteral_tokens TokenType.Number
    (some (sliceStr (digitRun (numberDotStep (digitRun st))).source
      (digitRun (numberDotStep (digitRun st))).start
      (digitRun (numberDotStep (digitRun st))).current))
    (digitRun (numberDotStep (digitRun st)))
  refine ⟨tk, ?_, hkind⟩
  rw [htk]
  obtain ⟨a1, a2, a3, a4⟩ := digitLoop_spec (st.source.length - st.current) st
  have h1 : (digitRun st).tokens = st.tokens := a3
  have h2 : (numberDotStep (digitRun st)).tokens = (digitRun st).tokens := by
    unfold numberDotStep
    split <;> rfl
  obtain ⟨b1, b2, b3, b4⟩ := digitLoop_spec
    ((numberDotStep (digitRun st)).source.length - (numberDotStep (digitRun st)).current)
    (numberDotStep (digitRun st))
  have h3 : (digitRun (numberDotStep (digitRun st))).tokens
      = (numberDotStep (digitRun st)).tokens := b3
  rw [h3, h2, h1]

/-- A successful `make_string` appends exactly one token and it is a
`String`. -/
theorem makeString_tokens (st st' : Scanner) (h : makeString st = Except.ok st') :
    ∃ tk, st'.tokens = st.tokens ++ [tk] ∧ tk.token = TokenType.String := by
  obtain ⟨s1, s2, s3, s4, s5⟩ := stringLoop_spec (st.source.length - st.current) st
  set st1 := stringLoop (st.source.length - st.current) st with hst1
  unfold makeString at h
  rw [← hst1] at h
  by_cases hend : isAtEnd st1
  · rw [if_pos hend] at h
    cases h
  · rw [if_neg hend] at h
    have hlt : st1.current < st1.source.length := by
      simp [isAtEnd] at hend
      omega
    cases hc : st1.source[st1.current]? with
    | none => rw [List.getElem?_eq_none_iff] at hc; omega
    | some c =>
      rw [show advance st1 = Except.ok (c, { st1 with current := st1.current + 1 })
            by simp [advance, hc]] at h
      injection h with h
      subst h
      exact ⟨{ token := TokenType.String,
               lexeme := sliceStr st1.source st1.start (st1.current + 1),
               literal := sliceStr st1.source (st1.start + 1) (st1.current + 1 - 1),
               line := st1.line }, by simp [addTokenLiteral, s3], rfl⟩

/-- `make_identifier` appends exactly one token and it is never `EOF`. -/
theorem makeIdentifier_tokens (st : Scanner) :
    ∃ tk, (makeIdentifier st).tokens = st.tokens ++ [tk] ∧ tk.token ≠ TokenType.EOF := by
  obtain ⟨s1, s2, s3, s4⟩ := alnumLoop_spec (st.source.length - st.current) st
  set st1 := alnumLoop (st.source.length - st.current) st with hst1
  have hmi : makeIdentifier st =
      (match getKeyword (sliceStr st1.source st1.start st1.current) with
        | some keyword => addToken keyword st1
        | none => addTokenLiteral TokenType.Identifier
            (some (sliceStr st1.source st1.start st1.current)) st1) := by
    simp only [makeIdentifier, hst1]
  rw [hmi]
  cases hk : getKeyword (sliceStr st1.source st1.start st1.current) with
  | some k =>
    obtain ⟨_, hne⟩ := getKeyword_some_ne _ _ hk
    exact ⟨{ token := k, lexeme := sliceStr st1.source st1.start st1.current,
             literal := "", line := st1.line },
           by simp [addToken, addTokenLiteral, s3], hne⟩
  | none =>
    exact ⟨{ token := TokenType.Identifier,
             lexeme := sliceStr st1.source st1.start st1.current,
             literal := sliceStr st1.source st1.start st1.current,
             line := st1.line },
           by simp [addTokenLiteral, s3], by simp⟩

/-- A successful `advance` never touches `source`, `start`, `tokens` or
`line`. -/
theorem advance_keeps (s : Scanner) (c : Char) (s' : Scanner)
    (h : advance s = Except.ok (c, s')) :
    s'.source = s.source ∧ s'.start = s.start ∧ s'.tokens = s.tokens ∧ s'.line = s.line := by
  unfold advance at h
  cases hg : s.source[s.current]? <;> rw [hg] at h
  · cases h
  · injection h with h
    obtain ⟨h1, h2⟩ := Prod.mk.injEq .. |>.mp h
    rw [← h2]
    exact ⟨rfl, rfl, rfl, rfl⟩

/-- `add_token` with a non-`EOF` kind appends one non-`EOF` token. -/
theorem addToken_appends (k : TokenType) (st0 : Scanner) (base : List Token)
    (hb : st0.tokens = base) (hk : k ≠ TokenType.EOF) :
    ∃ ts, (addToken k st0).tokens = base ++ ts ∧ ∀ t ∈ ts, t.token ≠ TokenType.EOF := by
  refine ⟨[{ token := k, lexeme := sliceStr st0.source st0.start st0.current,
             literal := "", line := st0.line }], ?_, by simpa using hk⟩
  simp [addToken, addTokenLiteral, hb]

/-- One successful `scan_token` step only appends tokens, and none of the
tokens it appends is an `EOF` token. -/
theorem scanToken_appends (st st' : Scanner) (h : scanToken st = Except.ok st') :
    ∃ ts, st'.tokens = st.tokens ++ ts ∧ ∀ t ∈ ts, t.token ≠ TokenType.EOF := by
  unfold scanToken at h
  cases hc : st.source[st.current]? with
  | none =>
    rw [show advance st = Except.error Panic.indexOutOfBounds by simp [advance, hc]] at h
    simp only [bind, Except.bind] at h
    cases h
  | some c =>
    rw [show advance st = Except.ok (c, { st with current := st.current + 1 })
          by simp [advance, hc]] at h
    simp only [bind, Except.bind] at h
    split at h
    -- whitespace and newline branches
    all_goals try (injection h with h; subst h; refine ⟨[], ?_, by simp⟩; simp; done)
    -- single-character token branches
    all_goals try (injection h with h; subst h; apply addToken_appends _ _ _ rfl; decide)
    -- one-character-lookahead token branches
    all_goals try (injection h with h; subst h;
                   apply addToken_appends _ _ _ (isMatch_keeps _ _).2.2.1; split <;> decide)
    -- line comment
    all_goals try (injection h with h; subst h; refine ⟨[], ?_, by simp⟩
                   rw [(lineCommentLoop_spec _ _).2.2.1]
                   simp)
    case _ =>
      -- the '/' branch: slash or block comment
      by_cases hm : (isMatch '*' { st with current := st.current + 1 }).1 = true
      · rw [if_pos hm] at h
        obtain ⟨c1, c2, c3⟩ := commentLoop_keeps
          ((isMatch '*' { st with current := st.current + 1 }).2.source.length -
            (isMatch '*' { st with current := st.current + 1 }).2.current)
          (isMatch '*' { st with current := st.current + 1 }).2
        split at h
        · cases h
        · cases ha : advance (commentLoop
              ((isMatch '*' { st with current := st.current + 1 }).2.source.length -
                (isMatch '*' { st with current := st.current + 1 }).2.current)
              (isMatch '*' { st with current := st.current + 1 }).2) with
          | error e =>
            rw [ha] at h
            simp only [bind, Except.bind] at h
            cases h
          | ok p =>
            rw [ha] at h
            simp only [bind, Except.bind] at h
            obtain ⟨a1, a2, a3, a4⟩ := advance_keeps _ _ _ ha
            cases hb : advance p.2 with
            | error e =>
              rw [hb] at h
              simp only [bind, Except.bind] at h
              cases h
            | ok q =>
              rw [hb] at h
              simp only [bind, Except.bind] at h
              obtain ⟨b1, b2, b3, b4⟩ := advance_keeps _ _ _ hb
              injection h with h
              subst h
              refine ⟨[], ?_, by simp⟩
              rw [b3, a3, c3, (isMatch_keeps _ _).2.2.1]
              simp
      · rw [if_neg hm] at h
        injection h with h
        subst h
        exact addToken_appends _ _ _ (isMatch_keeps _ _).2.2.1 (by decide)
    case _ =>
      -- the ':' branch
      split at h
      · injection h with h
        subst h
        exact addToken_appends _ _ _ (isMatch_keeps _ _).2.2.1 (by decide)
      · injection h with h
        subst h
        refine ⟨[], ?_, by simp⟩
        rw [(isMatch_keeps _ _).2.2.1]
        simp
    case _ =>
      -- the string-literal branch
      obtain ⟨tk, htk, hkk⟩ := makeString_tokens _ _ h
      exact ⟨[tk], htk, by simp [hkk]⟩
    case _ =>
      -- the default branch: digits, identifiers, unexpected characters
      split at h
      · injection h with h
        subst h
        obtain ⟨tk, htk, hkk⟩ := makeNumber_tokens _
        exact ⟨[tk], htk, by simp [hkk]⟩
      · split at h
        · injection h with h
          subst h
          obtain ⟨tk, htk, hkk⟩ := makeIdentifier_tokens _
          exact ⟨[tk], htk, by simpa using hkk⟩
        · injection h with h
          subst h
          exact ⟨[], by simp, by simp⟩

/-- The `scan_tokens` driver loop only appends tokens and none of them is
an `EOF` token. -/
theorem scanLoop_no_eof (fuel : Nat) (st st' : Scanner)
    (h : scanLoop fuel st = Except.ok st') :
    ∃ ts, st'.tokens = st.tokens ++ ts ∧ ∀ t ∈ ts, t.token ≠ TokenType.EOF := by
  induction fuel generalizing st with
  | zero =>
    rw [scanLoop] at h
    injection h with h
    subst h
    exact ⟨[], by simp, by simp⟩
  | succ n ih =>
    rw [scanLoop] at h
    split at h
    · injection h with h
      subst h
      exact ⟨[], by simp, by simp⟩
    · cases hs : scanToken { st with start := st.current } with
      | error e => rw [hs] at h; cases h
      | ok st1 =>
        rw [hs] at h
        obtain ⟨ts1, ht1, hn1⟩ := scanToken_appends _ _ hs
        obtain ⟨ts2, ht2, hn2⟩ := ih st1 h
        refine ⟨ts1 ++ ts2, ?_, ?_⟩
        · rw [ht2, ht1]
          simp
        · intro t ht
          rcases List.mem_append.mp ht with hh | hh
          · exact hn1 t hh
          · exact hn2 t hh

/-- Claim C2: whenever `scan_tokens` returns a token sequence (it can also
panic, see claim C1), that sequence has the `EOF` token as its final
element and no `EOF` token at any earlier position: the driver loop never
emits `EOF` and `scan_tokens` pushes exactly one after the loop. -/
theorem scan_tokens_single_trailing_eof (s : String) (toks : List Token)
    (h : scanTokensStr s = Except.ok toks) :
    ∃ ts last, toks = ts ++ [last] ∧ last.token = TokenType.EOF
      ∧ ∀ t ∈ ts, t.token ≠ TokenType.EOF := by
  unfold scanTokensStr scanTokens at h
  cases hl : scanLoop (Scanner.new s).source.length (Scanner.new s) with
  | error e => rw [hl] at h; cases h
  | ok st1 =>
    rw [hl] at h
    injection h with h
    obtain ⟨ts, hts, hn⟩ := scanLoop_no_eof _ _ _ hl
    refine ⟨st1.tokens,
      { token := TokenType.EOF, lexeme := "", literal := "", line := st1.line }, ?_, rfl, ?_⟩
    · rw [← h]
    · intro t ht
      rw [hts] at ht
      simp only [Scanner.new, List.nil_append] at ht
      exact hn t ht

/-- Witness for `scan_tokens_single_trailing_eof` on the source `5 + 5`. -/
theorem scan_tokens_single_trailing_eof_witness :
    ∃ (ts : List Token) (last : Token),
      [{ token := TokenType.Number, lexeme := "5", literal := "5", line := 1 },
       { token := TokenType.Plus, lexeme := "+", literal := "", line := 1 },
       { token := TokenType.Number, lexeme := "5", literal := "5", line := 1 },
       { token := TokenType.EOF, lexeme := "", literal := "", line := 1 }] = ts ++ [last]
      ∧ last.token = TokenType.EOF
      ∧ ∀ t ∈ ts, t.token ≠ TokenType.EOF :=
  scan_tokens_single_trailing_eof "5 + 5"
    [{ token := TokenType.Number, lexeme := "5", literal := "5", line := 1 },
     { token := TokenType.Plus, lexeme := "+", literal := "", line := 1 },
     { token := TokenType.Number, lexeme := "5", literal := "5", line := 1 },
     { token := TokenType.EOF, lexeme := "", literal := "", line := 1 }]
    (by decide)
